import Mathlib

/-!
# Verification of `extract_frames` (src/app.py)

A shallow embedding of the frame-extraction core of the repository.
The function `extract_frames` in `src/app.py` opens a video source,
counts the decodable frames in a first pass, computes a sampling
interval, extracts every `frame_interval`-th frame in a second pass,
and packages the written JPEG files into a ZIP archive.  All failures
are caught by a top-level handler that returns an error message and no
archive path.

The embedding models:
* Python `int(...)` applied to a nonnegative/negative real as
  truncation toward zero (`pyInt`);
* Python 3 `round(...)` as round-half-to-even (`pyRound`);
* real arithmetic on frame rates and durations by exact rationals;
* the decode behaviour of the `cv2.VideoCapture` object by the two
  lists of frames its two sequential passes yield, each list followed
  by either a clean end of stream or a raised decode exception;
* `cv2.imwrite` failures by an optional index of the output frame
  whose write raises;
* filenames as lists of characters; `f"frame_\x7bk:06d\x7d.jpg"` as a
  zero-padded decimal rendering built from `Nat.digits`.
-/

/-- Python `int(q)` on a real value: truncation toward zero. -/
def pyInt (q : ℚ) : ℤ := if 0 ≤ q then ⌊q⌋ else ⌈q⌉

/-- Python 3 `round(q)` on a real value: round half to even. -/
def pyRound (q : ℚ) : ℤ :=
  let f := ⌊q⌋
  if q - f < 1 / 2 then f
  else if 1 / 2 < q - f then f + 1
  else if f % 2 = 0 then f else f + 1

/-- Big-endian decimal digit characters of `n`, as Python renders a
nonnegative integer (`0` renders as `"0"`). -/
def digitsBE (n : ℕ) : List Char :=
  if n = 0 then ['0'] else ((Nat.digits 10 n).map Nat.digitChar).reverse

/-- Python format `\x7bn:06d\x7d`: the decimal rendering of `n`,
left-padded with `'0'` to at least six characters. -/
def format06 (n : ℕ) : List Char :=
  List.replicate (6 - (digitsBE n).length) '0' ++ digitsBE n

/-- The output file name `f"frame_\x7bk:06d\x7d.jpg"` of `src/app.py` line 68. -/
def fname (k : ℕ) : List Char := "frame_".toList ++ format06 k ++ ".jpg".toList

/-- The archive file name `"extracted_frames.zip"` of `src/app.py` line 86. -/
def zipName : List Char := "extracted_frames.zip".toList

/-- How a sequential decode pass of the capture ends: a clean
end-of-stream (`cap.read()` returns `ret = False`), or a raised
exception from the decoder. -/
inductive PassEnd
  | eof
  | raiseErr
deriving DecidableEq, Repr

/-- The behaviour of one input to `extract_frames`: whether the
capture opens, the nominal container metadata (`CAP_PROP_FRAME_COUNT`,
`CAP_PROP_FPS`), the frames each of the two sequential decode passes
yields together with how the pass ends, which output write (if any)
raises, and whether the ZIP-archiving step succeeds. -/
structure Source where
  openOk : Bool
  totalFrames : ℤ
  videoFps : ℚ
  pass1Frames : List ℕ
  pass1End : PassEnd
  pass2Frames : List ℕ
  pass2End : PassEnd
  writeFail : Option ℕ
  archiveOk : Bool
deriving DecidableEq, Repr

/-- The observable status of the returned message: the dedicated
"Could not open video file" message (line 17), the generic caught-
exception message (line 118), or the success summary (line 115). -/
inductive Status
  | success
  | openError
  | error
deriving DecidableEq, Repr

/-- The observable outcome of a run of `extract_frames`, together with
the state it leaves behind: the returned status and archive path, and
as ghost state whether `cap.release()` ran, the diagnostic values, the
files written to the temporary directory (name and frame content, in
write order), the final `extracted_count`, and the archive entries. -/
structure Result where
  status : Status
  zipPath : Option (List Char)
  released : Bool
  nominalDuration : ℚ
  framesRead : ℕ
  expectedOut : ℤ
  interval : ℕ
  written : List (List Char × ℕ)
  extractedCount : ℕ
  zipEntries : List (List Char)
deriving DecidableEq, Repr

/-- The all-failure base record: error status, no archive, source not
released, nothing written. -/
def baseResult : Result :=
  { status := Status.error, zipPath := none, released := false,
    nominalDuration := 0, framesRead := 0, expectedOut := 0,
    interval := 1, written := [], extractedCount := 0, zipEntries := [] }

/-- Line 51 of `src/app.py`:
`frame_interval = max(1, int(round(frames_read / expected_output_frames))) if expected_output_frames > 0 else 1`. -/
def frameIntervalOf (framesRead : ℕ) (expectedOut : ℤ) : ℕ :=
  if 0 < expectedOut then
    (max 1 (pyRound ((framesRead : ℚ) / (expectedOut : ℚ)))).toNat
  else 1

/-- Lines 43, 50 and 51 of `src/app.py` composed: the frame interval
computed from the pass-1 count, the nominal rate and the target rate. -/
def computeInterval (framesRead : ℕ) (videoFps fps : ℚ) : ℕ :=
  frameIntervalOf framesRead (pyInt ((framesRead : ℚ) / videoFps * fps))

/-- The pass-2 extraction loop (lines 60-79 of `src/app.py`).
`d` is `frame_interval`, `wf` the optional index of the failing write,
`i` the running `frame_idx` and `k` the running `extracted_count`.
Returns the files written (name and content, in write order), the
final `extracted_count`, and whether a write raised. -/
def pass2Go (d : ℕ) (wf : Option ℕ) : List ℕ → ℕ → ℕ → List (List Char × ℕ) × ℕ × Bool
  | [], _, k => ([], k, false)
  | f :: rest, i, k =>
    if i % d = 0 then
      if wf = some k then ([], k, true)
      else
        let res := pass2Go d wf rest (i + 1) (k + 1)
        ((fname k, f) :: res.1, res.2.1, res.2.2)
    else pass2Go d wf rest (i + 1) k

/-- The tail of `extract_frames` after pass 2 (lines 81-118): release
only if no exception was raised, then archive, filtering the walked
directory contents to names ending in `".jpg"`. -/
def afterPass2 (p2End : PassEnd) (archOk : Bool) (nomDur : ℚ) (framesRead : ℕ)
    (expectedOut : ℤ) (d : ℕ) (w : List (List Char × ℕ)) (k : ℕ) (raised : Bool) : Result :=
  if raised then
    { baseResult with
      nominalDuration := nomDur, framesRead := framesRead,
      expectedOut := expectedOut, interval := d, written := w, extractedCount := k }
  else
    match p2End with
    | PassEnd.raiseErr =>
        { baseResult with
          nominalDuration := nomDur, framesRead := framesRead,
          expectedOut := expectedOut, interval := d, written := w, extractedCount := k }
    | PassEnd.eof =>
        -- line 83: cap.release()
        if archOk = false then
          { baseResult with
            nominalDuration := nomDur, framesRead := framesRead,
            expectedOut := expectedOut, interval := d, written := w,
            extractedCount := k, released := true }
        else
          { status := Status.success, zipPath := some zipName, released := true,
            nominalDuration := nomDur, framesRead := framesRead,
            expectedOut := expectedOut, interval := d, written := w,
            extractedCount := k,
            zipEntries := (w.map Prod.fst ++ [zipName]).filter
              (fun nm => ".jpg".toList.isSuffixOf nm) }

/-- The body of `extract_frames` from line 19 on, once the capture has
opened and `video_fps` is nonzero (a zero rate raises
`ZeroDivisionError` at line 21, handled one level up). -/
def afterOpen (src : Source) (fps : ℚ) : Result :=
  let nomDur := (src.totalFrames : ℚ) / src.videoFps
  let framesRead := src.pass1Frames.length
  match src.pass1End with
  | PassEnd.raiseErr =>
      { baseResult with
        nominalDuration := nomDur, framesRead := framesRead }
  | PassEnd.eof =>
      let d := computeInterval framesRead src.videoFps fps
      let res := pass2Go d src.writeFail src.pass2Frames 0 0
      afterPass2 src.pass2End src.archiveOk nomDur framesRead
        (pyInt ((framesRead : ℚ) / src.videoFps * fps)) d res.1 res.2.1 res.2.2

/-- The embedding of `extract_frames` (src/app.py lines 9-118). -/
def extract_frames (src : Source) (fps : ℚ) : Result :=
  if src.openOk = false then
    { baseResult with status := Status.openError }
  else if src.videoFps = 0 then
    baseResult
  else
    afterOpen src fps

/-- The pass-2 run of a given source and target rate. -/
def runPass2 (src : Source) (fps : ℚ) : List (List Char × ℕ) × ℕ × Bool :=
  pass2Go (computeInterval src.pass1Frames.length src.videoFps fps)
    src.writeFail src.pass2Frames 0 0

/-- A run reaches `cap.release()` (line 83) exactly when the capture
opens, the nominal rate is nonzero, and both decode passes finish
without an exception. -/
def reachesRelease (src : Source) (fps : ℚ) : Prop :=
  src.openOk = true ∧ src.videoFps ≠ 0 ∧ src.pass1End = PassEnd.eof ∧
    (runPass2 src fps).2.2 = false ∧ src.pass2End = PassEnd.eof

/-! ## Properties of the pass-2 loop -/

/-- When no write fails, the pass-2 loop never raises. -/
theorem pass2Go_none_raised (d : ℕ) :
    ∀ (l : List ℕ) (i k : ℕ), (pass2Go d none l i k).2.2 = false := by
  intro l
  induction l with
  | nil => intro i k; rfl
  | cons f rest ih =>
    intro i k
    by_cases hi : i % d = 0 <;> simp [pass2Go, hi, ih]

/-- When no write fails, the final `extracted_count` is the initial
one plus the number of kept decode indices. -/
theorem pass2Go_none_count (d : ℕ) :
    ∀ (l : List ℕ) (i k : ℕ),
      (pass2Go d none l i k).2.1 =
        k + ((List.range' i l.length).filter (fun j => decide (j % d = 0))).length := by
  intro l
  induction l with
  | nil => intro i k; rfl
  | cons f rest ih =>
    intro i k
    rw [List.length_cons, List.range'_succ, List.filter_cons]
    by_cases hi : i % d = 0
    · simp only [pass2Go, hi, if_pos rfl, reduceCtorEq, if_false, ih, decide_eq_true_eq,
        if_true, List.length_cons]
      omega
    · simp only [pass2Go, hi, if_false, ih, decide_eq_true_eq]

/-- When no write fails, the written file names are `fname` applied to
the consecutive counter values starting at the initial count. -/
theorem pass2Go_none_names (d : ℕ) :
    ∀ (l : List ℕ) (i k : ℕ),
      (pass2Go d none l i k).1.map Prod.fst =
        (List.range' k (((List.range' i l.length).filter
          (fun j => decide (j % d = 0))).length)).map fname := by
  intro l
  induction l with
  | nil => intro i k; rfl
  | cons f rest ih =>
    intro i k
    rw [List.length_cons, List.range'_succ, List.filter_cons]
    by_cases hi : i % d = 0
    · simp only [pass2Go, hi, if_pos rfl, reduceCtorEq, if_false, decide_eq_true_eq, if_true,
        List.length_cons, List.map_cons, List.range'_succ]
      exact congrArg (List.cons (fname k)) (ih (i + 1) (k + 1))
    · simp only [pass2Go, hi, if_false, decide_eq_true_eq]
      exact ih (i + 1) k

/-- When no write fails, the kept frame contents are exactly the
decoded frames whose decode index is a multiple of the interval. -/
theorem pass2Go_none_snd (d : ℕ) :
    ∀ (l : List ℕ) (i k : ℕ),
      (pass2Go d none l i k).1.map Prod.snd =
        ((List.enumFrom i l).filter (fun p => decide (p.1 % d = 0))).map Prod.snd := by
  intro l
  induction l with
  | nil => intro i k; rfl
  | cons f rest ih =>
    intro i k
    rw [List.enumFrom_cons, List.filter_cons]
    by_cases hi : i % d = 0
    · simp only [pass2Go, hi, if_pos rfl, reduceCtorEq, if_false, decide_eq_true_eq, if_true,
        List.map_cons]
      exact congrArg (List.cons f) (ih (i + 1) (k + 1))
    · simp only [pass2Go, hi, if_false, decide_eq_true_eq]
      exact ih (i + 1) k

/-- The number of multiples of `d` below `N`. -/
def countMults (d N : ℕ) : ℕ :=
  ((List.range N).filter (fun j => decide (j % d = 0))).length

/-- Counting multiples of `d` below `N` is ceiling division:
`countMults d N = (N + d - 1) / d`. -/
theorem countMults_eq (d N : ℕ) (hd : 0 < d) : countMults d N = (N + d - 1) / d := by
  induction N with
  | zero =>
    simp only [countMults, List.range_zero, List.filter_nil, List.length_nil, Nat.zero_add]
    exact (Nat.div_eq_of_lt (by omega)).symm
  | succ N ih =>
    have hstep : countMults d (N + 1) = countMults d N + if N % d = 0 then 1 else 0 := by
      unfold countMults
      rw [List.range_succ, List.filter_append, List.length_append]
      by_cases h : N % d = 0 <;> simp [h]
    rw [hstep, ih]
    have h1 : N + 1 + d - 1 = (N + d - 1) + 1 := by omega
    rw [h1, Nat.succ_div]
    have h2 : N + d - 1 + 1 = N + d := by omega
    rw [h2]
    simp only [Nat.dvd_add_self_right]
    by_cases h : N % d = 0
    · rw [if_pos h, if_pos (Nat.dvd_iff_mod_eq_zero.mpr h)]
    · rw [if_neg h, if_neg (fun hdvd => h (Nat.dvd_iff_mod_eq_zero.mp hdvd))]

/-! ## Arithmetic helper lemmas -/

/-- Ceiling division over the rationals, explicit quotient/remainder form. -/
theorem ceil_div_nat_aux (d q r : ℕ) (hd : 0 < d) (hr1 : 0 < r) (hrd : r < d) :
    ⌈((d * q + r : ℕ) : ℚ) / (d : ℚ)⌉₊ = q + 1 := by
  have hd' : (0 : ℚ) < (d : ℚ) := by exact_mod_cast hd
  rw [Nat.ceil_eq_iff (by omega : q + 1 ≠ 0), Nat.add_sub_cancel]
  constructor
  · rw [lt_div_iff₀ hd']
    push_cast
    have hr1' : (0 : ℚ) < (r : ℚ) := by exact_mod_cast hr1
    nlinarith
  · rw [div_le_iff₀ hd']
    push_cast
    have hrd' : (r : ℚ) ≤ (d : ℚ) := by exact_mod_cast hrd.le
    nlinarith

/-- Ceiling division over the rationals agrees with the usual natural
formula `(N + d - 1) / d`. -/
theorem ceil_div_nat (N d : ℕ) (hd : 0 < d) :
    ⌈(N : ℚ) / (d : ℚ)⌉₊ = (N + d - 1) / d := by
  have hd' : (0 : ℚ) < (d : ℚ) := by exact_mod_cast hd
  rcases Nat.eq_zero_or_pos (N % d) with h | h
  · obtain ⟨q, hq⟩ : d ∣ N := Nat.dvd_iff_mod_eq_zero.mpr h
    subst hq
    have hcast : ((d * q : ℕ) : ℚ) / (d : ℚ) = (q : ℚ) := by
      push_cast
      exact mul_div_cancel_left₀ (q : ℚ) hd'.ne'
    rw [hcast, Nat.ceil_natCast, Nat.add_sub_assoc hd, Nat.mul_add_div hd,
      Nat.div_eq_of_lt (by omega), Nat.add_zero]
  · have hq : d * (N / d) + N % d = N := Nat.div_add_mod N d
    have hrd : N % d < d := Nat.mod_lt _ hd
    have hL : ⌈(N : ℚ) / (d : ℚ)⌉₊ = N / d + 1 := by
      have haux := ceil_div_nat_aux d (N / d) (N % d) hd h hrd
      rw [hq] at haux
      exact haux
    have hR : (N + d - 1) / d = N / d + 1 := by
      generalize hm : d * (N / d) = m at hq
      have h2 : N + d - 1 = d * (N / d + 1) + (N % d - 1) := by
        rw [Nat.mul_add, Nat.mul_one, hm]
        omega
      have h3 : (N % d - 1) / d = 0 := Nat.div_eq_of_lt (by omega)
      rw [h2, Nat.mul_add_div hd, h3, Nat.add_zero]
    rw [hL, hR]

/-- `pyInt` is the floor on nonnegative arguments. -/
theorem pyInt_of_nonneg {q : ℚ} (h : 0 ≤ q) : pyInt q = ⌊q⌋ := if_pos h

/-- Python rounding of a value in `(0, 1]` never exceeds `1`. -/
theorem pyRound_le_one {q : ℚ} (h0 : 0 < q) (h1 : q ≤ 1) : pyRound q ≤ 1 := by
  rcases eq_or_lt_of_le h1 with rfl | hlt
  · norm_num [pyRound]
  · have hf : ⌊q⌋ = 0 := Int.floor_eq_zero_iff.mpr (Set.mem_Ico.mpr ⟨h0.le, hlt⟩)
    simp only [pyRound, hf]
    split_ifs <;> norm_num

/-- The frame interval is always at least `1`. -/
theorem frameIntervalOf_pos (framesRead : ℕ) (expectedOut : ℤ) :
    1 ≤ frameIntervalOf framesRead expectedOut := by
  unfold frameIntervalOf
  split_ifs with h
  · have h1 : (1 : ℤ) ≤ max 1 (pyRound ((framesRead : ℚ) / (expectedOut : ℚ))) :=
      le_max_left _ _
    omega
  · exact le_refl 1

/-- The computed interval is always at least `1`. -/
theorem computeInterval_pos (framesRead : ℕ) (videoFps fps : ℚ) :
    1 ≤ computeInterval framesRead videoFps fps :=
  frameIntervalOf_pos _ _

/-! ## Path lemmas for `extract_frames` -/

theorem extract_frames_open_fail (src : Source) (fps : ℚ) (h : src.openOk = false) :
    extract_frames src fps = { baseResult with status := Status.openError } := by
  unfold extract_frames
  rw [if_pos h]

theorem extract_frames_fps_zero (src : Source) (fps : ℚ) (h1 : src.openOk = true)
    (h2 : src.videoFps = 0) : extract_frames src fps = baseResult := by
  unfold extract_frames
  rw [if_neg (by simp [h1]), if_pos h2]

theorem extract_frames_run (src : Source) (fps : ℚ) (h1 : src.openOk = true)
    (h2 : src.videoFps ≠ 0) : extract_frames src fps = afterOpen src fps := by
  unfold extract_frames
  rw [if_neg (by simp [h1]), if_neg h2]

theorem afterOpen_pass1_raise (src : Source) (fps : ℚ)
    (h3 : src.pass1End = PassEnd.raiseErr) :
    afterOpen src fps =
      { baseResult with
        nominalDuration := (src.totalFrames : ℚ) / src.videoFps,
        framesRead := src.pass1Frames.length } := by
  unfold afterOpen
  rw [h3]

theorem afterOpen_pass1_eof (src : Source) (fps : ℚ)
    (h3 : src.pass1End = PassEnd.eof) :
    afterOpen src fps =
      afterPass2 src.pass2End src.archiveOk
        ((src.totalFrames : ℚ) / src.videoFps) src.pass1Frames.length
        (pyInt ((src.pass1Frames.length : ℚ) / src.videoFps * fps))
        (computeInterval src.pass1Frames.length src.videoFps fps)
        (runPass2 src fps).1 (runPass2 src fps).2.1 (runPass2 src fps).2.2 := by
  unfold afterOpen runPass2
  rw [h3]

/-! ## Field lemmas for `afterPass2` -/

theorem afterPass2_interval (p2End : PassEnd) (archOk : Bool) (nomDur : ℚ)
    (framesRead : ℕ) (expectedOut : ℤ) (d : ℕ) (w : List (List Char × ℕ)) (k : ℕ)
    (raised : Bool) :
    (afterPass2 p2End archOk nomDur framesRead expectedOut d w k raised).interval = d := by
  cases raised <;> cases p2End <;> cases archOk <;> rfl

theorem afterPass2_written (p2End : PassEnd) (archOk : Bool) (nomDur : ℚ)
    (framesRead : ℕ) (expectedOut : ℤ) (d : ℕ) (w : List (List Char × ℕ)) (k : ℕ)
    (raised : Bool) :
    (afterPass2 p2End archOk nomDur framesRead expectedOut d w k raised).written = w := by
  cases raised <;> cases p2End <;> cases archOk <;> rfl

theorem afterPass2_count (p2End : PassEnd) (archOk : Bool) (nomDur : ℚ)
    (framesRead : ℕ) (expectedOut : ℤ) (d : ℕ) (w : List (List Char × ℕ)) (k : ℕ)
    (raised : Bool) :
    (afterPass2 p2End archOk nomDur framesRead expectedOut d w k raised).extractedCount
      = k := by
  cases raised <;> cases p2End <;> cases archOk <;> rfl

theorem afterPass2_released (p2End : PassEnd) (archOk : Bool) (nomDur : ℚ)
    (framesRead : ℕ) (expectedOut : ℤ) (d : ℕ) (w : List (List Char × ℕ)) (k : ℕ)
    (raised : Bool) :
    (afterPass2 p2End archOk nomDur framesRead expectedOut d w k raised).released = true
      ↔ (raised = false ∧ p2End = PassEnd.eof) := by
  cases raised <;> cases p2End <;> cases archOk <;>
    simp [afterPass2, baseResult]

theorem afterPass2_pair (p2End : PassEnd) (archOk : Bool) (nomDur : ℚ)
    (framesRead : ℕ) (expectedOut : ℤ) (d : ℕ) (w : List (List Char × ℕ)) (k : ℕ)
    (raised : Bool) :
    ((afterPass2 p2End archOk nomDur framesRead expectedOut d w k raised).status
        = Status.success ∧
      (afterPass2 p2End archOk nomDur framesRead expectedOut d w k raised).zipPath
        = some zipName) ∨
    ((afterPass2 p2End archOk nomDur framesRead expectedOut d w k raised).status
        ≠ Status.success ∧
      (afterPass2 p2End archOk nomDur framesRead expectedOut d w k raised).zipPath
        = none) := by
  cases raised <;> cases p2End <;> cases archOk <;>
    simp [afterPass2, baseResult]

theorem afterPass2_success (nomDur : ℚ) (framesRead : ℕ) (expectedOut : ℤ) (d : ℕ)
    (w : List (List Char × ℕ)) (k : ℕ) :
    afterPass2 PassEnd.eof true nomDur framesRead expectedOut d w k false =
      { status := Status.success, zipPath := some zipName, released := true,
        nominalDuration := nomDur, framesRead := framesRead,
        expectedOut := expectedOut, interval := d, written := w,
        extractedCount := k,
        zipEntries := (w.map Prod.fst ++ [zipName]).filter
          (fun nm => ".jpg".toList.isSuffixOf nm) } := rfl

/-! ## Injectivity of the output file names -/

/-- The numeric value of a decimal digit character. -/
def charVal (c : Char) : ℕ := c.toNat - 48

/-- Parse back a zero-padded decimal rendering: drop leading zeros,
read the remaining digit characters big-endian. -/
def unformat (l : List Char) : ℕ :=
  Nat.ofDigits 10 (((l.dropWhile (fun c => decide (c = '0'))).map charVal).reverse)

theorem charVal_digitChar (n : ℕ) (h : n < 10) : charVal (Nat.digitChar n) = n := by
  interval_cases n <;> rfl

theorem digitChar_ne_zero_char (n : ℕ) (h0 : n ≠ 0) (h : n < 10) :
    Nat.digitChar n ≠ '0' := by
  interval_cases n <;> simp_all <;> decide

theorem dropWhile_replicate_append (m : ℕ) (l : List Char) :
    (List.replicate m '0' ++ l).dropWhile (fun c => decide (c = '0')) =
      l.dropWhile (fun c => decide (c = '0')) := by
  induction m with
  | zero => rfl
  | succ m ih => rw [List.replicate_succ, List.cons_append, List.dropWhile_cons]; simp [ih]

/-- Applying `charVal` after `Nat.digitChar` is the identity on lists
of digits below `10`. -/
theorem map_charVal_digitChar (l : List ℕ) (h : ∀ x ∈ l, x < 10) :
    (l.map Nat.digitChar).map charVal = l := by
  rw [List.map_map]
  calc l.map (charVal ∘ Nat.digitChar)
      = l.map id := List.map_congr_left (fun x hx => charVal_digitChar x (h x hx))
    _ = l := List.map_id l

/-- `unformat` is a left inverse of the Python `06d` format. -/
theorem unformat_format06 (n : ℕ) : unformat (format06 n) = n := by
  unfold unformat format06
  rw [dropWhile_replicate_append]
  by_cases h : n = 0
  · subst h
    rfl
  · have hne : Nat.digits 10 n ≠ [] := Nat.digits_ne_nil_iff_ne_zero.mpr h
    rcases List.eq_nil_or_concat (Nat.digits 10 n) with hnil | ⟨ds, lastd, hcat⟩
    · exact absurd hnil hne
    have hcat' : Nat.digits 10 n = ds ++ [lastd] := by
      rw [hcat, List.concat_eq_append]
    have hmem : ∀ x ∈ Nat.digits 10 n, x < 10 :=
      fun x hx => Nat.digits_lt_base (by norm_num) hx
    have hlast10 : lastd < 10 :=
      hmem lastd (hcat' ▸ List.mem_append_right ds (List.mem_singleton_self lastd))
    have hlast0 : lastd ≠ 0 := by
      have hgl := Nat.getLast_digit_ne_zero 10 h
      have h1 : (Nat.digits 10 n).getLast? = some lastd := by
        rw [hcat', List.getLast?_concat]
      rw [List.getLast?_eq_getLast _ hne, Option.some_inj] at h1
      rw [← h1]
      exact hgl
    have hrev : (Nat.digits 10 n).reverse = lastd :: ds.reverse := by
      rw [hcat', List.reverse_append, List.reverse_singleton, List.singleton_append]
    have hbe : digitsBE n = Nat.digitChar lastd :: ds.reverse.map Nat.digitChar := by
      unfold digitsBE
      rw [if_neg h, ← List.map_reverse, hrev, List.map_cons]
    rw [hbe, List.dropWhile_cons,
      if_neg (by simp [digitChar_ne_zero_char lastd hlast0 hlast10]), ← List.map_cons,
      ← hrev, map_charVal_digitChar _ (fun x hx =>
        hmem x (List.mem_reverse.mp hx)), List.reverse_reverse]
    exact Nat.ofDigits_digits 10 n

/-- The Python `06d` format is injective. -/
theorem format06_inj : Function.Injective format06 :=
  Function.LeftInverse.injective unformat_format06

/-- The output file-name function is injective: distinct counter
values give distinct file names. -/
theorem fname_inj : Function.Injective fname := by
  intro a b hab
  unfold fname at hab
  exact format06_inj (List.append_cancel_left (List.append_cancel_right hab))

/-- Every output file name ends in `".jpg"`. -/
theorem fname_isSuffix_jpg (n : ℕ) : ".jpg".toList.isSuffixOf (fname n) = true := by
  rw [List.isSuffixOf_iff_suffix]
  unfold fname
  exact List.suffix_append _ _

/-- No output frame file is ever named like the archive: the archive
name ends in `'p'`, every frame name in `'g'`. -/
theorem fname_ne_zipName (n : ℕ) : fname n ≠ zipName := by
  intro he
  have h1 : (fname n).reverse.head? = some 'g' := by
    unfold fname
    rw [List.reverse_append]
    rfl
  rw [he] at h1
  exact absurd h1 (by decide)

/-! ## Concrete sources used by witnesses and counterexamples -/

/-- A small healthy source: three decodable frames, nominal rate 1. -/
def srcW : Source :=
  { openOk := true, totalFrames := 3, videoFps := 1,
    pass1Frames := [5, 6, 7], pass1End := PassEnd.eof,
    pass2Frames := [5, 6, 7], pass2End := PassEnd.eof,
    writeFail := none, archiveOk := true }

/-- A source whose capture fails to open. -/
def srcOpenFail : Source := { srcW with openOk := false }

/-- A source whose pass-1 decode raises an exception. -/
def srcPass1Err : Source := { srcW with pass1End := PassEnd.raiseErr }

/-- Ten decodable frames, nominal rate 1, honest metadata. -/
def srcMetaA : Source :=
  { openOk := true, totalFrames := 10, videoFps := 1,
    pass1Frames := List.range 10, pass1End := PassEnd.eof,
    pass2Frames := List.range 10, pass2End := PassEnd.eof,
    writeFail := none, archiveOk := true }

/-- The same ten decodable frames, but metadata reporting rate 10 and
a frame count of 300. -/
def srcMetaB : Source := { srcMetaA with totalFrames := 300, videoFps := 10 }

/-! ## The claims -/

/-- Claim C1: for every run in which pass 1 counts `N ≥ 1` decodable
frames and the nominal rate `R` is positive, the computed frame
interval equals `max 1 (round (N / E))` (Python rounding) whenever
`E = ⌊(N / R) * targetFps⌋` is positive, and equals `1` when `E = 0`. -/
theorem claim_C1 (src : Source) (fps : ℚ) (hOpen : src.openOk = true)
    (hR : 0 < src.videoFps) (h1 : src.pass1End = PassEnd.eof)
    (_hN : 1 ≤ src.pass1Frames.length) :
    (0 < ⌊(src.pass1Frames.length : ℚ) / src.videoFps * fps⌋ →
      ((extract_frames src fps).interval : ℤ) =
        max 1 (pyRound ((src.pass1Frames.length : ℚ) /
          ((⌊(src.pass1Frames.length : ℚ) / src.videoFps * fps⌋ : ℤ) : ℚ)))) ∧
    (⌊(src.pass1Frames.length : ℚ) / src.videoFps * fps⌋ = 0 →
      (extract_frames src fps).interval = 1) := by
  have hint : (extract_frames src fps).interval =
      computeInterval src.pass1Frames.length src.videoFps fps := by
    rw [extract_frames_run src fps hOpen (ne_of_gt hR), afterOpen_pass1_eof src fps h1,
      afterPass2_interval]
  set val := (src.pass1Frames.length : ℚ) / src.videoFps * fps with hval
  constructor
  · intro hE
    have hv0 : (0 : ℚ) ≤ val := by
      by_contra hneg
      push_neg at hneg
      have hle : ⌊val⌋ ≤ 0 := Int.floor_nonpos hneg.le
      omega
    have hpy : pyInt val = ⌊val⌋ := pyInt_of_nonneg hv0
    rw [hint]
    unfold computeInterval frameIntervalOf
    rw [← hval, hpy, if_pos hE]
    have hmax : (1 : ℤ) ≤ max 1 (pyRound ((src.pass1Frames.length : ℚ) / ((⌊val⌋ : ℤ) : ℚ))) :=
      le_max_left _ _
    omega
  · intro hE
    have hv0 : (0 : ℚ) ≤ val := (Int.floor_eq_zero_iff.mp hE).1
    have hpy : pyInt val = ⌊val⌋ := pyInt_of_nonneg hv0
    rw [hint]
    unfold computeInterval frameIntervalOf
    rw [← hval, hpy, hE]
    norm_num

/-- Witness for C1 at `srcW`, target rate 1: all hypotheses hold and
the conclusion follows by applying `claim_C1`. -/
theorem claim_C1_witness :
    (srcW.openOk = true ∧ 0 < srcW.videoFps ∧ srcW.pass1End = PassEnd.eof ∧
      1 ≤ srcW.pass1Frames.length) ∧
    ((0 < ⌊(srcW.pass1Frames.length : ℚ) / srcW.videoFps * 1⌋ →
      ((extract_frames srcW 1).interval : ℤ) =
        max 1 (pyRound ((srcW.pass1Frames.length : ℚ) /
          ((⌊(srcW.pass1Frames.length : ℚ) / srcW.videoFps * 1⌋ : ℤ) : ℚ)))) ∧
    (⌊(srcW.pass1Frames.length : ℚ) / srcW.videoFps * 1⌋ = 0 →
      (extract_frames srcW 1).interval = 1)) :=
  ⟨⟨rfl, by decide, rfl, by decide⟩, claim_C1 srcW 1 rfl (by decide) rfl (by decide)⟩

/-- The three fields of a run that reaches pass 2: interval, written
files and final count come from the pass-2 loop, whatever happens
later. -/
theorem extract_frames_fields (src : Source) (fps : ℚ) (hOpen : src.openOk = true)
    (hFps : src.videoFps ≠ 0) (h1 : src.pass1End = PassEnd.eof) :
    (extract_frames src fps).interval =
        computeInterval src.pass1Frames.length src.videoFps fps ∧
      (extract_frames src fps).written = (runPass2 src fps).1 ∧
      (extract_frames src fps).extractedCount = (runPass2 src fps).2.1 := by
  rw [extract_frames_run src fps hOpen hFps, afterOpen_pass1_eof src fps h1,
    afterPass2_interval, afterPass2_written, afterPass2_count]
  exact ⟨rfl, rfl, rfl⟩

/-- Claim C2: when pass 2 decodes `N` frames with frame interval `d`,
the number of persisted frames equals `⌈N / d⌉`, and exactly the
frames at decode indices `0, d, 2d, …` are kept. -/
theorem claim_C2 (src : Source) (fps : ℚ) (hOpen : src.openOk = true)
    (hFps : src.videoFps ≠ 0) (h1 : src.pass1End = PassEnd.eof)
    (_h2 : src.pass2End = PassEnd.eof) (hw : src.writeFail = none) :
    (extract_frames src fps).extractedCount =
      ⌈(src.pass2Frames.length : ℚ) / ((extract_frames src fps).interval : ℚ)⌉₊ ∧
    (extract_frames src fps).written.map Prod.snd =
      ((List.enumFrom 0 src.pass2Frames).filter
        (fun p => decide (p.1 % (extract_frames src fps).interval = 0))).map Prod.snd := by
  obtain ⟨hi, hwr, hc⟩ := extract_frames_fields src fps hOpen hFps h1
  set d := computeInterval src.pass1Frames.length src.videoFps fps with hd
  have hd1 : 1 ≤ d := computeInterval_pos _ _ _
  constructor
  · rw [hc, hi]
    unfold runPass2
    rw [hw, ← hd, pass2Go_none_count]
    rw [Nat.zero_add, ← List.range_eq_range']
    show countMults d src.pass2Frames.length = _
    rw [countMults_eq d _ hd1, ceil_div_nat _ d hd1]
  · rw [hwr, hi]
    unfold runPass2
    rw [hw, ← hd, pass2Go_none_snd]

/-- Witness for C2 at `srcW`, target rate 1: interval 1, all three
frames kept. -/
theorem claim_C2_witness :
    (srcW.openOk = true ∧ srcW.videoFps ≠ 0 ∧ srcW.pass1End = PassEnd.eof ∧
      srcW.pass2End = PassEnd.eof ∧ srcW.writeFail = none) ∧
    ((extract_frames srcW 1).extractedCount =
      ⌈(srcW.pass2Frames.length : ℚ) / ((extract_frames srcW 1).interval : ℚ)⌉₊ ∧
    (extract_frames srcW 1).written.map Prod.snd =
      ((List.enumFrom 0 srcW.pass2Frames).filter
        (fun p => decide (p.1 % (extract_frames srcW 1).interval = 0))).map Prod.snd) :=
  ⟨⟨rfl, by decide, rfl, rfl, rfl⟩, claim_C2 srcW 1 rfl (by decide) rfl rfl rfl⟩

/-- Claim C3: `extract_frames` never raises past its boundary — every
run, with any injected failure (open, metadata, decode, write or
archive), returns a normalized pair: either the success status with
the archive path, or a non-success status with an absent archive path.
In particular a pass-2 failure after frames were written still reports
no archive (no partial success). -/
theorem claim_C3 (src : Source) (fps : ℚ) :
    ((extract_frames src fps).status = Status.success ∧
      (extract_frames src fps).zipPath = some zipName) ∨
    ((extract_frames src fps).status ≠ Status.success ∧
      (extract_frames src fps).zipPath = none) := by
  by_cases ho : src.openOk = false
  · rw [extract_frames_open_fail src fps ho]
    exact Or.inr ⟨by decide, rfl⟩
  · have ho' : src.openOk = true := by
      revert ho
      cases src.openOk <;> simp
    by_cases hf : src.videoFps = 0
    · rw [extract_frames_fps_zero src fps ho' hf]
      exact Or.inr ⟨by decide, rfl⟩
    · rw [extract_frames_run src fps ho' hf]
      cases h1 : src.pass1End with
      | raiseErr =>
        rw [afterOpen_pass1_raise src fps h1]
        exact Or.inr ⟨by simp [baseResult], rfl⟩
      | eof =>
        rw [afterOpen_pass1_eof src fps h1]
        exact afterPass2_pair _ _ _ _ _ _ _ _ _

/-- Counterexample to claim C4 as stated: a source that opens
successfully but whose pass-1 decode raises an exception returns with
the capture never released (`cap.release()` on line 83 is skipped when
the handler on line 117 catches the exception). -/
theorem claim_C4_counterexample :
    srcPass1Err.openOk = true ∧ (extract_frames srcPass1Err 1).released = false := by
  decide

/-- Claim C4 (amended): the source is released exactly on the runs
that complete both decode passes without an exception — normal
completion and archive-step failures — and is not released on open
failure or on exceptions during counting or extraction. -/
theorem claim_C4 (src : Source) (fps : ℚ) :
    (extract_frames src fps).released = true ↔ reachesRelease src fps := by
  unfold reachesRelease
  by_cases ho : src.openOk = false
  · rw [extract_frames_open_fail src fps ho]
    simp [baseResult, ho]
  · have ho' : src.openOk = true := by
      revert ho
      cases src.openOk <;> simp
    by_cases hf : src.videoFps = 0
    · rw [extract_frames_fps_zero src fps ho' hf]
      simp [baseResult, hf]
    · rw [extract_frames_run src fps ho' hf]
      cases h1 : src.pass1End with
      | raiseErr =>
        rw [afterOpen_pass1_raise src fps h1]
        simp [baseResult, h1]
      | eof =>
        rw [afterOpen_pass1_eof src fps h1, afterPass2_released]
        simp [ho', hf, h1]

/-- `pyRound` is the identity on integers. -/
theorem pyRound_intCast (z : ℤ) : pyRound (z : ℚ) = z := by
  simp only [pyRound, Int.floor_intCast, sub_self]
  norm_num

/-- Evaluation rule for `computeInterval` on concrete values. -/
theorem computeInterval_eval (n : ℕ) (R fps : ℚ) (E : ℤ) (hE0 : 0 < E) (r : ℤ)
    (hnonneg : 0 ≤ (n : ℚ) / R * fps) (hE : ⌊(n : ℚ) / R * fps⌋ = E)
    (hr : pyRound ((n : ℚ) / (E : ℚ)) = r) (hr1 : 1 ≤ r) :
    computeInterval n R fps = r.toNat := by
  unfold computeInterval frameIntervalOf
  rw [pyInt_of_nonneg hnonneg, hE, if_pos hE0, hr, max_eq_right hr1]

/-- Counterexample to claim C5 as stated: two sources decoding the
same ten frames but reporting different nominal metadata (rate 1
versus 10) compute different frame intervals (1 versus 10) — the
nominal frame rate does drive the sampling decision, through
`actual_duration = frames_read / video_fps` on line 43. -/
theorem claim_C5_counterexample :
    srcMetaA.pass1Frames = srcMetaB.pass1Frames ∧
    srcMetaA.pass2Frames = srcMetaB.pass2Frames ∧
    srcMetaA.videoFps ≠ srcMetaB.videoFps ∧
    srcMetaA.totalFrames ≠ srcMetaB.totalFrames ∧
    (extract_frames srcMetaA 1).interval = 1 ∧
    (extract_frames srcMetaB 1).interval = 10 := by
  refine ⟨rfl, rfl, by decide, by decide, ?_, ?_⟩
  · rw [(extract_frames_fields srcMetaA 1 rfl (by decide) rfl).1]
    show computeInterval 10 1 1 = 1
    exact computeInterval_eval 10 1 1 10 (by norm_num) 1 (by norm_num) (by norm_num)
      (by rw [show ((10 : ℕ) : ℚ) / (((10 : ℤ) : ℤ) : ℚ) = ((1 : ℤ) : ℚ) by norm_num,
            pyRound_intCast]) (by norm_num)
  · rw [(extract_frames_fields srcMetaB 1 rfl (by decide) rfl).1]
    show computeInterval 10 10 1 = 10
    exact computeInterval_eval 10 10 1 1 (by norm_num) 10 (by norm_num) (by norm_num)
      (by rw [show ((10 : ℕ) : ℚ) / (((1 : ℤ) : ℤ) : ℚ) = ((10 : ℤ) : ℚ) by norm_num,
            pyRound_intCast]) (by norm_num)

/-- All observable fields of `afterPass2` other than the nominal
duration are independent of the nominal-duration argument. -/
theorem afterPass2_congr (p2End : PassEnd) (archOk : Bool) (nd nd' : ℚ)
    (framesRead : ℕ) (expectedOut : ℤ) (d : ℕ) (w : List (List Char × ℕ)) (k : ℕ)
    (raised : Bool) :
    (afterPass2 p2End archOk nd framesRead expectedOut d w k raised).interval =
        (afterPass2 p2End archOk nd' framesRead expectedOut d w k raised).interval ∧
      (afterPass2 p2End archOk nd framesRead expectedOut d w k raised).written =
        (afterPass2 p2End archOk nd' framesRead expectedOut d w k raised).written ∧
      (afterPass2 p2End archOk nd framesRead expectedOut d w k raised).extractedCount =
        (afterPass2 p2End archOk nd' framesRead expectedOut d w k raised).extractedCount ∧
      (afterPass2 p2End archOk nd framesRead expectedOut d w k raised).status =
        (afterPass2 p2End archOk nd' framesRead expectedOut d w k raised).status ∧
      (afterPass2 p2End archOk nd framesRead expectedOut d w k raised).zipPath =
        (afterPass2 p2End archOk nd' framesRead expectedOut d w k raised).zipPath := by
  cases raised <;> cases p2End <;> cases archOk <;> exact ⟨rfl, rfl, rfl, rfl, rfl⟩

/-- Claim C5 (amended): only the nominal frame count is
diagnostics-only.  Two runs that decode the same frames and agree on
every source attribute except the nominal frame count compute the same
frame interval, persist the same frames, and return the same status
and archive path.  (The nominal frame rate, by contrast, does drive
the sampling decision — see the counterexample.) -/
theorem claim_C5 (s1 s2 : Source) (fps : ℚ) (ho : s1.openOk = s2.openOk)
    (hv : s1.videoFps = s2.videoFps) (hp1 : s1.pass1Frames = s2.pass1Frames)
    (he1 : s1.pass1End = s2.pass1End) (hp2 : s1.pass2Frames = s2.pass2Frames)
    (he2 : s1.pass2End = s2.pass2End) (hwf : s1.writeFail = s2.writeFail)
    (ha : s1.archiveOk = s2.archiveOk) :
    (extract_frames s1 fps).interval = (extract_frames s2 fps).interval ∧
      (extract_frames s1 fps).written = (extract_frames s2 fps).written ∧
      (extract_frames s1 fps).extractedCount = (extract_frames s2 fps).extractedCount ∧
      (extract_frames s1 fps).status = (extract_frames s2 fps).status ∧
      (extract_frames s1 fps).zipPath = (extract_frames s2 fps).zipPath := by
  by_cases ho1 : s1.openOk = false
  · have ho2 : s2.openOk = false := by rw [← ho]; exact ho1
    rw [extract_frames_open_fail s1 fps ho1, extract_frames_open_fail s2 fps ho2]
    exact ⟨rfl, rfl, rfl, rfl, rfl⟩
  · have ho1' : s1.openOk = true := by
      revert ho1
      cases s1.openOk <;> simp
    have ho2' : s2.openOk = true := by rw [← ho]; exact ho1'
    by_cases hf1 : s1.videoFps = 0
    · have hf2 : s2.videoFps = 0 := by rw [← hv]; exact hf1
      rw [extract_frames_fps_zero s1 fps ho1' hf1, extract_frames_fps_zero s2 fps ho2' hf2]
      exact ⟨rfl, rfl, rfl, rfl, rfl⟩
    · have hf2 : s2.videoFps ≠ 0 := by rw [← hv]; exact hf1
      rw [extract_frames_run s1 fps ho1' hf1, extract_frames_run s2 fps ho2' hf2]
      cases h1 : s1.pass1End with
      | raiseErr =>
        have h1' : s2.pass1End = PassEnd.raiseErr := by rw [← he1]; exact h1
        rw [afterOpen_pass1_raise s1 fps h1, afterOpen_pass1_raise s2 fps h1']
        exact ⟨rfl, rfl, rfl, rfl, rfl⟩
      | eof =>
        have h1' : s2.pass1End = PassEnd.eof := by rw [← he1]; exact h1
        rw [afterOpen_pass1_eof s1 fps h1, afterOpen_pass1_eof s2 fps h1']
        unfold runPass2
        rw [hp1, hv, hp2, hwf, he2, ha]
        exact afterPass2_congr _ _ _ _ _ _ _ _ _ _

/-- The same source as `srcMetaA` with only the nominal frame count
changed. -/
def srcMetaC : Source := { srcMetaA with totalFrames := 999 }

/-- Witness for the amended C5 at `srcMetaA` versus `srcMetaC`:
sources differing only in the nominal frame count behave
identically. -/
theorem claim_C5_witness :
    (srcMetaA.openOk = srcMetaC.openOk ∧ srcMetaA.videoFps = srcMetaC.videoFps ∧
      srcMetaA.pass1Frames = srcMetaC.pass1Frames ∧
      srcMetaA.pass1End = srcMetaC.pass1End ∧
      srcMetaA.pass2Frames = srcMetaC.pass2Frames ∧
      srcMetaA.pass2End = srcMetaC.pass2End ∧
      srcMetaA.writeFail = srcMetaC.writeFail ∧
      srcMetaA.archiveOk = srcMetaC.archiveOk) ∧
    ((extract_frames srcMetaA 1).interval = (extract_frames srcMetaC 1).interval ∧
      (extract_frames srcMetaA 1).written = (extract_frames srcMetaC 1).written ∧
      (extract_frames srcMetaA 1).extractedCount =
        (extract_frames srcMetaC 1).extractedCount ∧
      (extract_frames srcMetaA 1).status = (extract_frames srcMetaC 1).status ∧
      (extract_frames srcMetaA 1).zipPath = (extract_frames srcMetaC 1).zipPath) :=
  ⟨⟨rfl, rfl, rfl, rfl, rfl, rfl, rfl, rfl⟩,
    claim_C5 srcMetaA srcMetaC 1 rfl rfl rfl rfl rfl rfl rfl rfl⟩

/-- Claim C6: if the target rate is at least the (positive) nominal
rate then the frame interval is `1` and every decoded frame is kept:
the extracted count equals the number of decodable frames. -/
theorem claim_C6 (src : Source) (fps : ℚ) (hOpen : src.openOk = true)
    (hR : 0 < src.videoFps) (hfps : src.videoFps ≤ fps)
    (h1 : src.pass1End = PassEnd.eof) (_h2 : src.pass2End = PassEnd.eof)
    (hw : src.writeFail = none) (hsame : src.pass2Frames = src.pass1Frames)
    (hN : 1 ≤ src.pass1Frames.length) :
    (extract_frames src fps).interval = 1 ∧
    (extract_frames src fps).extractedCount = src.pass1Frames.length := by
  obtain ⟨hi, hwr, hc⟩ := extract_frames_fields src fps hOpen (ne_of_gt hR) h1
  have hN1 : (1 : ℚ) ≤ (src.pass1Frames.length : ℚ) := by exact_mod_cast hN
  have hval : (src.pass1Frames.length : ℚ) ≤
      (src.pass1Frames.length : ℚ) / src.videoFps * fps := by
    rw [div_mul_eq_mul_div, le_div_iff₀ hR]
    exact mul_le_mul_of_nonneg_left hfps (by positivity)
  have hv0 : (0 : ℚ) ≤ (src.pass1Frames.length : ℚ) / src.videoFps * fps :=
    le_trans (le_trans zero_le_one hN1) hval
  have hE : (src.pass1Frames.length : ℤ) ≤
      ⌊(src.pass1Frames.length : ℚ) / src.videoFps * fps⌋ :=
    Int.le_floor.mpr (by push_cast; exact hval)
  have hNz : (1 : ℤ) ≤ (src.pass1Frames.length : ℤ) := by exact_mod_cast hN
  have hint1 : computeInterval src.pass1Frames.length src.videoFps fps = 1 := by
    unfold computeInterval frameIntervalOf
    rw [pyInt_of_nonneg hv0, if_pos (by omega)]
    have hE1 : (1 : ℤ) ≤ ⌊(src.pass1Frames.length : ℚ) / src.videoFps * fps⌋ := by omega
    have hEQ : (0 : ℚ) < ((⌊(src.pass1Frames.length : ℚ) / src.videoFps * fps⌋ : ℤ) : ℚ) := by
      exact_mod_cast lt_of_lt_of_le zero_lt_one hE1
    have hq0 : (0 : ℚ) < (src.pass1Frames.length : ℚ) /
        ((⌊(src.pass1Frames.length : ℚ) / src.videoFps * fps⌋ : ℤ) : ℚ) :=
      div_pos (lt_of_lt_of_le zero_lt_one hN1) hEQ
    have hq1 : (src.pass1Frames.length : ℚ) /
        ((⌊(src.pass1Frames.length : ℚ) / src.videoFps * fps⌋ : ℤ) : ℚ) ≤ 1 := by
      rw [div_le_one hEQ]
      exact_mod_cast hE
    rw [max_eq_left (pyRound_le_one hq0 hq1)]
    rfl
  constructor
  · rw [hi]
    exact hint1
  · rw [hc]
    unfold runPass2
    rw [hw, hint1, hsame, pass2Go_none_count, Nat.zero_add]
    simp [List.length_range', Nat.mod_one]

/-- Witness for C6 at `srcW`, target rate 2 (at least the nominal
rate 1): interval 1 and all three frames kept. -/
theorem claim_C6_witness :
    (srcW.openOk = true ∧ 0 < srcW.videoFps ∧ srcW.videoFps ≤ 2 ∧
      srcW.pass1End = PassEnd.eof ∧ srcW.pass2End = PassEnd.eof ∧
      srcW.writeFail = none ∧ srcW.pass2Frames = srcW.pass1Frames ∧
      1 ≤ srcW.pass1Frames.length) ∧
    ((extract_frames srcW 2).interval = 1 ∧
      (extract_frames srcW 2).extractedCount = srcW.pass1Frames.length) :=
  ⟨⟨rfl, by decide, by decide, rfl, rfl, rfl, rfl, by decide⟩,
    claim_C6 srcW 2 rfl (by decide) (by decide) rfl rfl rfl rfl (by decide)⟩

/-- Claim C7: on a successful run persisting `k` frames, the output
file names are exactly `frame_000000.jpg … frame_{k-1:06d}.jpg` in
decode order — contiguous zero-based zero-padded indices with no gaps
and, since the name function is injective, no duplicates. -/
theorem claim_C7 (src : Source) (fps : ℚ) (hOpen : src.openOk = true)
    (hFps : src.videoFps ≠ 0) (h1 : src.pass1End = PassEnd.eof)
    (_h2 : src.pass2End = PassEnd.eof) (hw : src.writeFail = none)
    (_ha : src.archiveOk = true) :
    (extract_frames src fps).written.map Prod.fst =
      (List.range (extract_frames src fps).extractedCount).map fname ∧
    ((extract_frames src fps).written.map Prod.fst).Nodup := by
  obtain ⟨hi, hwr, hc⟩ := extract_frames_fields src fps hOpen hFps h1
  set d := computeInterval src.pass1Frames.length src.videoFps fps with hd
  have hnames : (runPass2 src fps).1.map Prod.fst =
      (List.range' 0 (((List.range' 0 src.pass2Frames.length).filter
        (fun j => decide (j % d = 0))).length)).map fname := by
    unfold runPass2
    rw [hw, ← hd, pass2Go_none_names]
  have hcount : (runPass2 src fps).2.1 =
      ((List.range' 0 src.pass2Frames.length).filter
        (fun j => decide (j % d = 0))).length := by
    unfold runPass2
    rw [hw, ← hd, pass2Go_none_count, Nat.zero_add]
  constructor
  · rw [hwr, hc, hnames, hcount, ← List.range_eq_range']
  · rw [hwr, hnames]
    exact List.Nodup.map fname_inj (List.nodup_range' 0 _)

/-- Witness for C7 at `srcW`, target rate 1. -/
theorem claim_C7_witness :
    (srcW.openOk = true ∧ srcW.videoFps ≠ 0 ∧ srcW.pass1End = PassEnd.eof ∧
      srcW.pass2End = PassEnd.eof ∧ srcW.writeFail = none ∧ srcW.archiveOk = true) ∧
    ((extract_frames srcW 1).written.map Prod.fst =
      (List.range (extract_frames srcW 1).extractedCount).map fname ∧
    ((extract_frames srcW 1).written.map Prod.fst).Nodup) :=
  ⟨⟨rfl, by decide, rfl, rfl, rfl, rfl⟩, claim_C7 srcW 1 rfl (by decide) rfl rfl rfl rfl⟩

/-- Claim C8: when the capture cannot be opened, the function returns
the open-failure status with no archive path, attempts no decoding and
creates no files. -/
theorem claim_C8 (src : Source) (fps : ℚ) (h : src.openOk = false) :
    (extract_frames src fps).status = Status.openError ∧
    (extract_frames src fps).zipPath = none ∧
    (extract_frames src fps).written = [] ∧
    (extract_frames src fps).extractedCount = 0 ∧
    (extract_frames src fps).zipEntries = [] ∧
    (extract_frames src fps).framesRead = 0 := by
  rw [extract_frames_open_fail src fps h]
  exact ⟨rfl, rfl, rfl, rfl, rfl, rfl⟩

/-- Witness for C8 at `srcOpenFail`. -/
theorem claim_C8_witness :
    srcOpenFail.openOk = false ∧
    ((extract_frames srcOpenFail 1).status = Status.openError ∧
      (extract_frames srcOpenFail 1).zipPath = none ∧
      (extract_frames srcOpenFail 1).written = [] ∧
      (extract_frames srcOpenFail 1).extractedCount = 0 ∧
      (extract_frames srcOpenFail 1).zipEntries = [] ∧
      (extract_frames srcOpenFail 1).framesRead = 0) :=
  ⟨rfl, claim_C8 srcOpenFail 1 rfl⟩

/-- Claim C9: whenever pass 2 decodes at least one frame (and no write
fails), at least one frame is persisted: decode index 0 always
satisfies `0 % frame_interval = 0`, so the output is never silently
empty on a nonempty decodable video. -/
theorem claim_C9 (src : Source) (fps : ℚ) (hOpen : src.openOk = true)
    (hFps : src.videoFps ≠ 0) (h1 : src.pass1End = PassEnd.eof)
    (hw : src.writeFail = none) (hne : src.pass2Frames ≠ []) :
    1 ≤ (extract_frames src fps).extractedCount := by
  obtain ⟨hi, hwr, hc⟩ := extract_frames_fields src fps hOpen hFps h1
  set d := computeInterval src.pass1Frames.length src.videoFps fps with hd
  have hd1 : 1 ≤ d := computeInterval_pos _ _ _
  have hlen : 1 ≤ src.pass2Frames.length := List.length_pos.mpr hne
  rw [hc]
  unfold runPass2
  rw [hw, ← hd, pass2Go_none_count, Nat.zero_add, ← List.range_eq_range']
  show 1 ≤ countMults d src.pass2Frames.length
  rw [countMults_eq d _ hd1, Nat.one_le_div_iff (by omega)]
  omega

/-- Witness for C9 at `srcW`, target rate 1. -/
theorem claim_C9_witness :
    (srcW.openOk = true ∧ srcW.videoFps ≠ 0 ∧ srcW.pass1End = PassEnd.eof ∧
      srcW.writeFail = none ∧ srcW.pass2Frames ≠ []) ∧
    1 ≤ (extract_frames srcW 1).extractedCount :=
  ⟨⟨rfl, by decide, rfl, rfl, by decide⟩, claim_C9 srcW 1 rfl (by decide) rfl rfl (by decide)⟩

/-- Claim C10: on a successful run the archive contains exactly the
persisted `.jpg` files, and the archive `extracted_frames.zip` —
although it lives in the walked directory — is never an entry of
itself, because the walk keeps only names ending in `".jpg"`. -/
theorem claim_C10 (src : Source) (fps : ℚ) (hOpen : src.openOk = true)
    (hFps : src.videoFps ≠ 0) (h1 : src.pass1End = PassEnd.eof)
    (h2 : src.pass2End = PassEnd.eof) (hw : src.writeFail = none)
    (ha : src.archiveOk = true) :
    (extract_frames src fps).zipEntries =
      (extract_frames src fps).written.map Prod.fst ∧
    zipName ∉ (extract_frames src fps).zipEntries := by
  have hraised : (runPass2 src fps).2.2 = false := by
    unfold runPass2
    rw [hw]
    exact pass2Go_none_raised _ _ _ _
  have hrun : extract_frames src fps =
      { status := Status.success, zipPath := some zipName, released := true,
        nominalDuration := (src.totalFrames : ℚ) / src.videoFps,
        framesRead := src.pass1Frames.length,
        expectedOut := pyInt ((src.pass1Frames.length : ℚ) / src.videoFps * fps),
        interval := computeInterval src.pass1Frames.length src.videoFps fps,
        written := (runPass2 src fps).1, extractedCount := (runPass2 src fps).2.1,
        zipEntries := ((runPass2 src fps).1.map Prod.fst ++ [zipName]).filter
          (fun nm => ".jpg".toList.isSuffixOf nm) } := by
    rw [extract_frames_run src fps hOpen hFps, afterOpen_pass1_eof src fps h1, h2, ha,
      hraised, afterPass2_success]
  set d := computeInterval src.pass1Frames.length src.videoFps fps with hd
  have hnames : (runPass2 src fps).1.map Prod.fst =
      (List.range' 0 (((List.range' 0 src.pass2Frames.length).filter
        (fun j => decide (j % d = 0))).length)).map fname := by
    unfold runPass2
    rw [hw, ← hd, pass2Go_none_names]
  have hall : ∀ nm ∈ (runPass2 src fps).1.map Prod.fst,
      (".jpg".toList.isSuffixOf nm) = true := by
    intro nm hnm
    rw [hnames] at hnm
    obtain ⟨j, _, rfl⟩ := List.mem_map.mp hnm
    exact fname_isSuffix_jpg j
  have hz : (".jpg".toList.isSuffixOf zipName) = false := by decide
  have hfilter : ((runPass2 src fps).1.map Prod.fst ++ [zipName]).filter
      (fun nm => ".jpg".toList.isSuffixOf nm) = (runPass2 src fps).1.map Prod.fst := by
    rw [List.filter_append, List.filter_eq_self.mpr hall, List.filter_cons,
      if_neg (by rw [hz]; exact Bool.false_ne_true), List.filter_nil, List.append_nil]
  constructor
  · rw [hrun]
    exact hfilter
  · rw [hrun]
    show zipName ∉ ((runPass2 src fps).1.map Prod.fst ++ [zipName]).filter
      (fun nm => ".jpg".toList.isSuffixOf nm)
    rw [hfilter, hnames]
    intro hmem
    obtain ⟨j, _, hje⟩ := List.mem_map.mp hmem
    exact fname_ne_zipName j hje

/-- Witness for C10 at `srcW`, target rate 1. -/
theorem claim_C10_witness :
    (srcW.openOk = true ∧ srcW.videoFps ≠ 0 ∧ srcW.pass1End = PassEnd.eof ∧
      srcW.pass2End = PassEnd.eof ∧ srcW.writeFail = none ∧ srcW.archiveOk = true) ∧
    ((extract_frames srcW 1).zipEntries =
      (extract_frames srcW 1).written.map Prod.fst ∧
    zipName ∉ (extract_frames srcW 1).zipEntries) :=
  ⟨⟨rfl, by decide, rfl, rfl, rfl, rfl⟩, claim_C10 srcW 1 rfl (by decide) rfl rfl rfl rfl⟩
